import Mathlib

set_option maxRecDepth 100000

/-!
Verification of the core control loop of the standalone seismic detection
system (`pico2_rp2350_standalone.c`).

The embedding below translates the C source into Lean:
* `float` values (velocities, confidences, voltages) become `ℚ`;
* `uint32_t` arithmetic keeps its wraparound behaviour via `% 4294967296`
  (`u32sub` is C unsigned subtraction);
* the global mutable state of the program becomes explicit state records
  (`SampleBuffer`, `Counters`, `LoopState`) threaded through pure functions;
* output peripherals (LEDs, buzzer) become an event trace (`SinkEvent`),
  and one iteration of the `while (1)` body becomes `loopIter`, returning
  the successor state together with the events of that iteration.
-/

/- ======================= configuration constants ======================= -/

def WINDOW_SIZE : Nat := 256
def SAMPLE_PERIOD_MS : Nat := 10
def ADC_SAMPLES : Nat := 64
def LED_BUILTIN : Nat := 25
def LED_STATUS : Nat := 15
def LED_ALERT : Nat := 14
def BUZZER_PIN : Nat := 16
def ADC_VREF : ℚ := 3.3
def SM24_SENSITIVITY_V_MS : ℚ := 28.8

/-- C unsigned 32-bit subtraction `a - b` (wraparound modulo `2^32`). -/
def u32sub (a b : Nat) : Nat :=
  (a % 4294967296 + (4294967296 - b % 4294967296)) % 4294967296

/- ======================= sample buffer ======================= -/

/-- Mirror of `sample_buffer_t`: `float buffer[WINDOW_SIZE]; uint16_t index; bool filled;`. -/
structure SampleBuffer where
  buffer : List ℚ
  index : Nat
  filled : Bool
deriving DecidableEq

/-- Mirror of the zero-initialised global `geophone_buffer`. -/
def initial_buffer : SampleBuffer :=
  { buffer := List.replicate WINDOW_SIZE 0, index := 0, filled := false }

/-- Mirror of `buffer_add_sample`: write at the cursor, advance, wrap and set
`filled` when the incremented cursor reaches `WINDOW_SIZE`. -/
def buffer_add_sample (s : SampleBuffer) (value : ℚ) : SampleBuffer :=
  let buf := s.buffer.set s.index value
  let i := s.index + 1
  if WINDOW_SIZE ≤ i then
    { buffer := buf, index := 0, filled := true }
  else
    { buffer := buf, index := i, filled := s.filled }

/-- Push a whole list of values, oldest first. -/
def pushList (vs : List ℚ) (s : SampleBuffer) : SampleBuffer :=
  vs.foldl buffer_add_sample s

/-- The sequence `run_inference` actually iterates over: raw storage order
`buffer[0] .. buffer[WINDOW_SIZE-1]`. -/
def window_handed (s : SampleBuffer) : List ℚ := s.buffer

/-- Modelled from the spec: the snapshot "linearized from the wrap point"
(oldest first).  The C code contains no such linearization; this definition
follows the spec wording so that it can be compared against `window_handed`. -/
def chronological_snapshot (s : SampleBuffer) : List ℚ :=
  s.buffer.drop s.index ++ s.buffer.take s.index

/- ======================= data acquisition ======================= -/

/-- Mirror of `geophone_sample_t`. -/
structure GeophoneSample where
  velocity_m_s : ℚ
  velocity_mm_s : ℚ
  raw_voltage : ℚ
  raw_adc : Nat
  timestamp_ms : Nat
deriving DecidableEq

/-- Mirror of `read_adc_averaged`: sum `ADC_SAMPLES` raw readings into a
`uint32_t` accumulator (wraparound kept) and divide (C integer division).
The readings of this tick are supplied as a list. -/
def read_adc_averaged (reads : List Nat) : Nat :=
  (reads.foldl (fun sum r => (sum + r) % 4294967296) 0) / ADC_SAMPLES

/-- Mirror of `adc_to_voltage`: 12-bit ADC value to volts. -/
def adc_to_voltage (adc_value : Nat) : ℚ :=
  ((adc_value : ℚ) * ADC_VREF) / 4095

/-- Mirror of `voltage_to_velocity_ms`: remove the Vcc/2 bias, divide by the
geophone sensitivity. -/
def voltage_to_velocity_ms (voltage : ℚ) : ℚ :=
  let v_center := ADC_VREF / 2
  let v_signal := voltage - v_center
  v_signal / SM24_SENSITIVITY_V_MS

/-- Mirror of `acquire_geophone_sample`; `t` is the millisecond clock read. -/
def acquire_geophone_sample (reads : List Nat) (t : Nat) : GeophoneSample :=
  let adc_raw := read_adc_averaged reads
  let voltage := adc_to_voltage adc_raw
  let velocity := voltage_to_velocity_ms voltage
  { raw_adc := adc_raw
    raw_voltage := voltage
    velocity_m_s := velocity
    velocity_mm_s := velocity * 1000
    timestamp_ms := t }

/- ======================= inference ======================= -/

/-- Mirror of `inference_result_t`. -/
structure InferenceResult where
  label : String
  confidence : ℚ
  inference_time_ms : Nat
  timestamp_ms : Nat
deriving DecidableEq

/-- A zero-initialised `inference_result_t`. -/
def zero_result : InferenceResult :=
  { label := "", confidence := 0, inference_time_ms := 0, timestamp_ms := 0 }

/-- Mirror of the `avg_amplitude` computation in `run_inference`: mean of the
absolute values of the raw storage array. -/
def avg_amplitude (buf : List ℚ) : ℚ :=
  (buf.map (fun x => |x|)).sum / (WINDOW_SIZE : ℚ)

/-- Mirror of `run_inference`.  The C function mutates an out-parameter; here
`prev` is the value of that struct before the call, so a field the C code does
not assign (the timestamp in the `insufficient_data` branch) keeps its previous
value.  `start_time`/`end_time` are the two clock reads inside the function. -/
def run_inference (buf : SampleBuffer) (start_time end_time : Nat)
    (prev : InferenceResult) : InferenceResult :=
  if buf.filled = false then
    { label := "insufficient_data", confidence := 0, inference_time_ms := 0
      timestamp_ms := prev.timestamp_ms }
  else
    let avg := avg_amplitude buf.buffer
    let lc : String × ℚ :=
      if avg > 0.05 then
        let c : ℚ := 0.85 + avg * 2
        ("earthquake", if c > 1 then (0.98 : ℚ) else c)
      else if avg > 0.02 then
        let c : ℚ := 0.70 + avg * 5
        ("tremor", if c > 1 then (0.85 : ℚ) else c)
      else
        ("noise", (0.95 : ℚ))
    { label := lc.1, confidence := lc.2
      inference_time_ms := u32sub end_time start_time
      timestamp_ms := end_time }

/- ======================= alert sinks and policy ======================= -/

/-- One fire-and-forget command sent to an output peripheral. -/
inductive SinkEvent where
  | ledBlink (pin count duration_ms : Nat)
  | buzzerBeep (count duration_ms : Nat)
  | gpioPut (pin : Nat) (level : Bool)
deriving DecidableEq

/-- Mirror of `led_blink`: one blink pattern on a pin. -/
def led_blink (pin count duration_ms : Nat) : List SinkEvent :=
  [SinkEvent.ledBlink pin count duration_ms]

/-- Mirror of `buzzer_beep`: returns immediately (no events) when
`alert_silenced` is set. -/
def buzzer_beep (silenced : Bool) (count duration_ms : Nat) : List SinkEvent :=
  if silenced then [] else [SinkEvent.buzzerBeep count duration_ms]

/-- Mirror of `alert_low_confidence`. -/
def alert_low_confidence : List SinkEvent :=
  led_blink LED_STATUS 2 200

/-- Mirror of `alert_high_confidence`. -/
def alert_high_confidence (silenced : Bool) : List SinkEvent :=
  led_blink LED_ALERT 5 100 ++ buzzer_beep silenced 3 150

/-- Mirror of `alert_critical`: blink, beep, then latch the alert LED on. -/
def alert_critical (silenced : Bool) : List SinkEvent :=
  led_blink LED_ALERT 10 50 ++ buzzer_beep silenced 5 100 ++
    [SinkEvent.gpioPut LED_ALERT true]

/-- The three global event counters (`uint32_t` in C). -/
structure Counters where
  total_events : Nat
  high_confidence_events : Nat
  critical_events : Nat
deriving DecidableEq

/-- Mirror of `process_inference_result`: drop "noise", increment `total`,
then pick the severity tier by confidence (highest first). -/
def process_inference_result (r : InferenceResult) (silenced : Bool)
    (c : Counters) : Counters × List SinkEvent :=
  if r.label = "noise" then
    (c, [])
  else
    let c1 := { c with total_events := (c.total_events + 1) % 4294967296 }
    if r.confidence ≥ 0.95 then
      ({ c1 with critical_events := (c1.critical_events + 1) % 4294967296 },
       alert_critical silenced)
    else if r.confidence ≥ 0.85 then
      ({ c1 with high_confidence_events :=
           (c1.high_confidence_events + 1) % 4294967296 },
       alert_high_confidence silenced)
    else
      (c1, alert_low_confidence)

/- ======================= silence button ======================= -/

/-- Mirror of `check_button`.  `button_active` models `!gpio_get(BUTTON_PIN)`
(the input reads active / pressed).  Returns the new `alert_silenced` flag,
the new `last_press`, and the emitted sink events. -/
def check_button (button_active : Bool) (now : Nat) (silenced : Bool)
    (last_press : Nat) : Bool × Nat × List SinkEvent :=
  if button_active = true ∧ 500 < u32sub now last_press then
    let ns := !silenced
    (ns, now,
     SinkEvent.gpioPut LED_ALERT false ::
       led_blink LED_BUILTIN (if ns then 1 else 3) 100)
  else
    (silenced, last_press, [])

/- ======================= main loop ======================= -/

/-- The environment inputs of one `while (1)` iteration: the millisecond
clock, the raw ADC readings available this tick, and the button level. -/
structure LoopInput where
  now : Nat
  adc_reads : List Nat
  button_active : Bool

/-- The mutable state of `main` together with the globals it touches. -/
structure LoopState where
  buf : SampleBuffer
  counters : Counters
  silenced : Bool
  last_press : Nat
  last_sample_time : Nat
  last_inference_time : Nat
  last_status_time : Nat
  heartbeat_counter : Nat
  last_inference : InferenceResult
deriving DecidableEq

/-- Observable happenings of one loop iteration. -/
inductive Event where
  | acquire (v : ℚ)
  | inference (r : InferenceResult)
  | statusReport
  | sink (e : SinkEvent)
deriving DecidableEq

/-- One iteration of the `while (1)` body of `main`, in source order:
acquisition cadence, classification cadence, status cadence, heartbeat,
button check. -/
def loopIter (inp : LoopInput) (s : LoopState) : LoopState × List Event :=
  let now := inp.now
  let acqDue := SAMPLE_PERIOD_MS ≤ u32sub now s.last_sample_time
  let s1 :=
    if acqDue then
      let sample := acquire_geophone_sample inp.adc_reads now
      { s with buf := buffer_add_sample s.buf sample.velocity_m_s
               last_sample_time := now }
    else s
  let evA : List Event :=
    if acqDue then [Event.acquire (acquire_geophone_sample inp.adc_reads now).velocity_m_s]
    else []
  let infDue := s1.buf.filled = true ∧ 2560 ≤ u32sub now s1.last_inference_time
  let s2 :=
    if infDue then
      let r := run_inference s1.buf now now s1.last_inference
      let pr := process_inference_result r s1.silenced s1.counters
      { s1 with counters := pr.1, last_inference := r, last_inference_time := now }
    else s1
  let evI : List Event :=
    if infDue then
      let r := run_inference s1.buf now now s1.last_inference
      Event.inference r ::
        (process_inference_result r s1.silenced s1.counters).2.map Event.sink
    else []
  let statusDue := 30000 ≤ u32sub now s2.last_status_time
  let s3 := if statusDue then { s2 with last_status_time := now } else s2
  let evS : List Event := if statusDue then [Event.statusReport] else []
  let evH : List Event :=
    (if s3.heartbeat_counter % 1000 = 0 then [Event.sink (SinkEvent.gpioPut LED_BUILTIN true)] else []) ++
    (if s3.heartbeat_counter % 1000 = 100 then [Event.sink (SinkEvent.gpioPut LED_BUILTIN false)] else [])
  let s4 := { s3 with heartbeat_counter := (s3.heartbeat_counter + 1) % 4294967296 }
  let cb := check_button inp.button_active now s4.silenced s4.last_press
  let s5 := { s4 with silenced := cb.1, last_press := cb.2.1 }
  (s5, evA ++ evI ++ evS ++ evH ++ cb.2.2.map Event.sink)

/-- Run the loop over a list of per-iteration inputs, collecting all events. -/
def loopRun (inps : List LoopInput) (s : LoopState) : LoopState × List Event :=
  match inps with
  | [] => (s, [])
  | inp :: rest =>
    let st := loopIter inp s
    let r2 := loopRun rest st.1
    (r2.1, st.2 ++ r2.2)

/-- Count the events selected by `p`. -/
def countEvents (p : Event → Bool) (evs : List Event) : Nat :=
  (evs.filter p).length

/-- Recogniser for acquisition events. -/
def isAcqEvent : Event → Bool
  | Event.acquire _ => true
  | _ => false

/-- Recogniser for classification events. -/
def isInfEvent : Event → Bool
  | Event.inference _ => true
  | _ => false

/-- Recogniser for status-report events. -/
def isStatusEvent : Event → Bool
  | Event.statusReport => true
  | _ => false

/- ======================= buffer invariant ======================= -/

/-- Invariant tying a buffer state to the full history of pushed values:
the storage has fixed length, the cursor equals the push count modulo the
capacity, `filled` records whether at least `WINDOW_SIZE` pushes happened,
rotating the storage at the cursor yields the last `WINDOW_SIZE` pushes in
chronological order, and before the first fill the prefix up to the cursor
is exactly the history. -/
def BufInv (hist : List ℚ) (s : SampleBuffer) : Prop :=
  s.buffer.length = WINDOW_SIZE ∧
  s.index = hist.length % WINDOW_SIZE ∧
  (s.filled = true ↔ WINDOW_SIZE ≤ hist.length) ∧
  (WINDOW_SIZE ≤ hist.length →
    s.buffer.drop s.index ++ s.buffer.take s.index =
      hist.drop (hist.length - WINDOW_SIZE)) ∧
  (hist.length < WINDOW_SIZE → s.buffer.take s.index = hist)

/- ======================= demonstration inputs ======================= -/

/-- The zero-initialised global counters. -/
def zero_counters : Counters :=
  { total_events := 0, high_confidence_events := 0, critical_events := 0 }

/-- A concrete non-noise classification result with the given confidence. -/
def sample_result (conf : ℚ) : InferenceResult :=
  { label := "earthquake", confidence := conf, inference_time_ms := 1,
    timestamp_ms := 2 }

/-- A loop input with no ADC activity and the button released. -/
def quiet_inp (t : Nat) : LoopInput :=
  { now := t, adc_reads := [], button_active := false }

/-- A loop state whose acquisition cadence last fired at t = 100 and whose
other cadences are at their boot values. -/
def stall_state : LoopState :=
  { buf := initial_buffer, counters := zero_counters, silenced := false,
    last_press := 0, last_sample_time := 100, last_inference_time := 0,
    last_status_time := 0, heartbeat_counter := 1,
    last_inference := zero_result }

/-- A loop state with a filled (warmed-up) buffer, mid-cycle, whose
acquisition cadence is not due at t = 3000. -/
def filled_state : LoopState :=
  { buf := { buffer := List.replicate WINDOW_SIZE 0, index := 0, filled := true },
    counters := zero_counters, silenced := false, last_press := 0,
    last_sample_time := 2995, last_inference_time := 0, last_status_time := 0,
    heartbeat_counter := 1, last_inference := zero_result }

/-- 257 pushes: 256 zeros followed by a single 1. -/
def cex_pushes : List ℚ := List.replicate 256 (0 : ℚ) ++ [1]

/-- A loop state with an unfilled buffer whose acquisition and status
cadences are not due at t = 3000 but whose classification period has long
elapsed. -/
def unfilled_state : LoopState :=
  { buf := initial_buffer, counters := zero_counters, silenced := false,
    last_press := 0, last_sample_time := 2995, last_inference_time := 0,
    last_status_time := 0, heartbeat_counter := 1,
    last_inference := zero_result }

/-- An acquisition tick whose 64 ADC reads are all saturated at full scale. -/
def sat_inp : LoopInput :=
  { now := 1000, adc_reads := List.replicate 64 4095, button_active := false }

/-- A full window whose every sample is 0.074. -/
def cex_buffer : SampleBuffer :=
  { buffer := List.replicate WINDOW_SIZE (0.074 : ℚ), index := 0, filled := true }

/-- The classification the loop performs at t = 3000 from `filled_state`. -/
def inf_demo : InferenceResult :=
  run_inference filled_state.buf 3000 3000 filled_state.last_inference


/- ======================= supporting lemmas ======================= -/

theorem u32sub_eq_sub (a b : Nat) (hba : b ≤ a) (ha : a < 4294967296) :
    u32sub a b = a - b := by
  unfold u32sub
  omega

theorem drop_succ_set {α : Type} (v : α) :
    ∀ (i : Nat) (l : List α), (l.set i v).drop (i + 1) = l.drop (i + 1)
  | _, [] => by simp
  | 0, _ :: _ => by simp
  | i + 1, x :: xs => by
      simpa [List.set, List.drop] using drop_succ_set v i xs

theorem take_succ_set {α : Type} (v : α) :
    ∀ (i : Nat) (l : List α), i < l.length →
      (l.set i v).take (i + 1) = l.take i ++ [v]
  | 0, _ :: _, _ => by simp
  | i + 1, x :: xs, h => by
      have ih := take_succ_set v i xs (by simpa using Nat.lt_of_succ_lt_succ h)
      simp [List.set, List.take, ih]

theorem bufInv_initial : BufInv [] initial_buffer := by
  unfold BufInv initial_buffer
  decide

theorem bufInv_push (hist : List ℚ) (s : SampleBuffer) (v : ℚ)
    (h : BufInv hist s) : BufInv (hist ++ [v]) (buffer_add_sample s v) := by
  obtain ⟨hlen, hidx, hfill, hrot, hpre⟩ := h
  have hW : WINDOW_SIZE = 256 := rfl
  have hidx_lt : s.index < 256 := by
    rw [hidx, hW]; exact Nat.mod_lt _ (by norm_num)
  have hidx_len : s.index < s.buffer.length := by
    rw [hlen, hW]; exact hidx_lt
  have hlenv : (hist ++ [v]).length = hist.length + 1 := by
    simp
  by_cases hc : s.index = 255
  · -- the push wraps the cursor from 255 to 0
    have hstep : buffer_add_sample s v =
        { buffer := s.buffer.set s.index v, index := 0, filled := true } := by
      unfold buffer_add_sample
      rw [if_pos]
      rw [hc, hW]
    have hk : 255 ≤ hist.length := by
      rw [hW] at hidx; omega
    have hnil : s.buffer.drop (s.index + 1) = [] := by
      apply List.drop_eq_nil_of_le
      rw [hlen, hW, hc]
    have hset : s.buffer.set s.index v = s.buffer.take s.index ++ [v] := by
      have h1 : s.buffer.set s.index v =
          s.buffer.take s.index ++ v :: s.buffer.drop (s.index + 1) :=
        List.set_eq_take_cons_drop v hidx_len
      rw [hnil] at h1
      exact h1
    refine ⟨by simp [hstep, hlen], ?_, ?_, ?_, ?_⟩
    · rw [hstep, hlenv, hW]
      rw [hW] at hidx
      dsimp only
      omega
    · rw [hstep, hlenv]
      dsimp only
      constructor
      · intro _; rw [hW]; omega
      · intro _; rfl
    · intro _
      rw [hstep]
      dsimp only
      rw [List.drop_zero, List.take_zero, List.append_nil, hset, hlenv]
      by_cases hfirst : hist.length < 256
      · -- exactly the 256th push
        have htk : s.buffer.take s.index = hist := by
          apply hpre; rw [hW]; omega
        rw [htk]
        have h0 : hist.length + 1 - WINDOW_SIZE = 0 := by
          rw [hW]; omega
        rw [h0, List.drop_zero]
      · -- a later wrap
        push_neg at hfirst
        have hrot2 := hrot (by rw [hW]; omega)
        have hdropc := List.drop_eq_getElem_cons hidx_len
        rw [hnil] at hdropc
        rw [hdropc] at hrot2
        have hw1 : (hist.drop (hist.length - WINDOW_SIZE)).drop 1 =
            s.buffer.take s.index := by
          rw [← hrot2]
          simp only [List.cons_append, List.nil_append, List.drop_succ_cons,
            List.drop_zero]
        have hd : (hist ++ [v]).drop (hist.length + 1 - WINDOW_SIZE) =
            hist.drop (hist.length + 1 - WINDOW_SIZE) ++ [v] := by
          apply List.drop_append_of_le_length
          rw [hW]; omega
        rw [hd]
        have hdd : hist.drop (hist.length + 1 - WINDOW_SIZE) =
            (hist.drop (hist.length - WINDOW_SIZE)).drop 1 := by
          rw [List.drop_drop]
          congr 1
          rw [hW]; omega
        rw [hdd, hw1]
    · intro hcontra
      rw [hlenv, hW] at hcontra; omega
  · -- no wrap: the cursor advances to index + 1
    have hstep : buffer_add_sample s v =
        { buffer := s.buffer.set s.index v, index := s.index + 1,
          filled := s.filled } := by
      unfold buffer_add_sample
      rw [if_neg]
      rw [hW]; omega
    refine ⟨by simp [hstep, hlen], ?_, ?_, ?_, ?_⟩
    · rw [hstep, hlenv, hW]
      rw [hW] at hidx
      dsimp only
      omega
    · rw [hstep, hlenv]
      dsimp only
      rw [hfill, hW]
      rw [hW] at hidx
      constructor <;> intro <;> omega
    · intro hge
      rw [hlenv] at hge
      have hge2 : WINDOW_SIZE ≤ hist.length := by
        rw [hW] at hge hidx ⊢; omega
      have hrot2 := hrot hge2
      rw [hstep, hlenv]
      dsimp only
      rw [drop_succ_set, take_succ_set v s.index s.buffer hidx_len]
      have hdropc := List.drop_eq_getElem_cons hidx_len
      rw [hdropc] at hrot2
      have hw1 : (hist.drop (hist.length - WINDOW_SIZE)).drop 1 =
          s.buffer.drop (s.index + 1) ++ s.buffer.take s.index := by
        rw [← hrot2]
        simp only [List.cons_append, List.drop_succ_cons, List.drop_zero]
      have hd : (hist ++ [v]).drop (hist.length + 1 - WINDOW_SIZE) =
          hist.drop (hist.length + 1 - WINDOW_SIZE) ++ [v] := by
        apply List.drop_append_of_le_length
        rw [hW]; omega
      rw [hd]
      have hdd : hist.drop (hist.length + 1 - WINDOW_SIZE) =
          (hist.drop (hist.length - WINDOW_SIZE)).drop 1 := by
        rw [List.drop_drop]
        congr 1
        rw [hW] at hge2 ⊢; omega
      rw [hdd, hw1, List.append_assoc]
    · intro hlt
      rw [hlenv] at hlt
      have hlt2 : hist.length < WINDOW_SIZE := by omega
      have hidx_eq : s.index = hist.length := by
        rw [hidx, Nat.mod_eq_of_lt]
        rw [hW] at hlt2 ⊢; omega
      rw [hstep]
      dsimp only
      rw [take_succ_set v s.index s.buffer hidx_len, hpre hlt2]

theorem bufInv_pushList (vs : List ℚ) :
    ∀ (hist : List ℚ) (s : SampleBuffer), BufInv hist s →
      BufInv (hist ++ vs) (pushList vs s) := by
  induction vs with
  | nil => intro hist s h; simpa [pushList] using h
  | cons v vs ih =>
      intro hist s h
      have h2 := ih (hist ++ [v]) (buffer_add_sample s v) (bufInv_push hist s v h)
      have : hist ++ v :: vs = (hist ++ [v]) ++ vs := by simp
      rw [this]
      simpa [pushList] using h2

theorem pushList_inv (vs : List ℚ) : BufInv vs (pushList vs initial_buffer) := by
  simpa using bufInv_pushList vs [] initial_buffer bufInv_initial

/- ======================= loop observation lemmas ======================= -/

theorem filled_push (s : SampleBuffer) (v : ℚ) (h : s.filled = true) :
    (buffer_add_sample s v).filled = true := by
  unfold buffer_add_sample
  dsimp only
  split <;> simp [h]

theorem filter_sink_acq (l : List SinkEvent) :
    (l.map Event.sink).filter isAcqEvent = [] := by
  induction l with
  | nil => rfl
  | cons e es ih => simp [isAcqEvent, ih]

theorem filter_sink_inf (l : List SinkEvent) :
    (l.map Event.sink).filter isInfEvent = [] := by
  induction l with
  | nil => rfl
  | cons e es ih => simp [isInfEvent, ih]

theorem filter_sink_status (l : List SinkEvent) :
    (l.map Event.sink).filter isStatusEvent = [] := by
  induction l with
  | nil => rfl
  | cons e es ih => simp [isStatusEvent, ih]

theorem countEvents_nil (p : Event → Bool) : countEvents p [] = 0 := rfl

theorem countEvents_append (p : Event → Bool) (l1 l2 : List Event) :
    countEvents p (l1 ++ l2) = countEvents p l1 + countEvents p l2 := by
  simp [countEvents, List.filter_append]

theorem countEvents_cons (p : Event → Bool) (e : Event) (l : List Event) :
    countEvents p (e :: l) = (if p e then 1 else 0) + countEvents p l := by
  simp only [countEvents, List.filter_cons]
  split <;> simp [Nat.add_comm]

theorem countEvents_sink_acq (l : List SinkEvent) :
    countEvents isAcqEvent (l.map Event.sink) = 0 := by
  simp [countEvents, filter_sink_acq]

theorem countEvents_sink_inf (l : List SinkEvent) :
    countEvents isInfEvent (l.map Event.sink) = 0 := by
  simp [countEvents, filter_sink_inf]

theorem countEvents_sink_status (l : List SinkEvent) :
    countEvents isStatusEvent (l.map Event.sink) = 0 := by
  simp [countEvents, filter_sink_status]

theorem loopIter_acq_count (inp : LoopInput) (s : LoopState) :
    countEvents isAcqEvent (loopIter inp s).2 =
      if SAMPLE_PERIOD_MS ≤ u32sub inp.now s.last_sample_time then 1 else 0 := by
  simp only [loopIter]
  simp [countEvents_append, apply_ite (countEvents isAcqEvent),
    countEvents_cons, countEvents_nil, countEvents_sink_acq, isAcqEvent]

theorem loopIter_last_sample (inp : LoopInput) (s : LoopState) :
    (loopIter inp s).1.last_sample_time =
      if SAMPLE_PERIOD_MS ≤ u32sub inp.now s.last_sample_time then inp.now
      else s.last_sample_time := by
  simp only [loopIter]
  simp [apply_ite LoopState.last_sample_time]

theorem loopIter_status_count (inp : LoopInput) (s : LoopState) :
    countEvents isStatusEvent (loopIter inp s).2 =
      if 30000 ≤ u32sub inp.now s.last_status_time then 1 else 0 := by
  simp only [loopIter]
  simp [countEvents_append, apply_ite (countEvents isStatusEvent),
    countEvents_cons, countEvents_nil, countEvents_sink_status, isStatusEvent,
    apply_ite LoopState.last_status_time]

theorem loopIter_last_status (inp : LoopInput) (s : LoopState) :
    (loopIter inp s).1.last_status_time =
      if 30000 ≤ u32sub inp.now s.last_status_time then inp.now
      else s.last_status_time := by
  simp only [loopIter]
  simp [apply_ite LoopState.last_status_time]

theorem loopIter_filled (inp : LoopInput) (s : LoopState)
    (h : s.buf.filled = true) : (loopIter inp s).1.buf.filled = true := by
  simp only [loopIter]
  simp [apply_ite LoopState.buf, apply_ite SampleBuffer.filled, h,
    filled_push s.buf (acquire_geophone_sample inp.adc_reads inp.now).velocity_m_s h]

theorem loopIter_inf_count_of_filled (inp : LoopInput) (s : LoopState)
    (h : s.buf.filled = true) :
    countEvents isInfEvent (loopIter inp s).2 =
      if 2560 ≤ u32sub inp.now s.last_inference_time then 1 else 0 := by
  simp only [loopIter]
  simp [countEvents_append, apply_ite (countEvents isInfEvent),
    countEvents_cons, countEvents_nil, countEvents_sink_inf, isInfEvent,
    apply_ite LoopState.buf, apply_ite SampleBuffer.filled,
    apply_ite LoopState.last_inference_time, h,
    filled_push s.buf (acquire_geophone_sample inp.adc_reads inp.now).velocity_m_s h]

theorem loopIter_last_inference_of_filled (inp : LoopInput) (s : LoopState)
    (h : s.buf.filled = true) :
    (loopIter inp s).1.last_inference_time =
      if 2560 ≤ u32sub inp.now s.last_inference_time then inp.now
      else s.last_inference_time := by
  simp only [loopIter]
  simp [apply_ite LoopState.last_inference_time, apply_ite LoopState.buf,
    apply_ite SampleBuffer.filled, h,
    filled_push s.buf (acquire_geophone_sample inp.adc_reads inp.now).velocity_m_s h]

theorem loopIter_inf_not_due (inp : LoopInput) (s : LoopState)
    (h : ¬ 2560 ≤ u32sub inp.now s.last_inference_time) :
    countEvents isInfEvent (loopIter inp s).2 = 0 ∧
      (loopIter inp s).1.last_inference_time = s.last_inference_time := by
  simp only [loopIter]
  constructor
  · simp [countEvents_append, apply_ite (countEvents isInfEvent),
      countEvents_cons, countEvents_nil, countEvents_sink_inf, isInfEvent,
      apply_ite LoopState.last_inference_time, h]
  · simp [apply_ite LoopState.last_inference_time, h]

/- ======================= cadence non-accumulation ======================= -/

theorem loopRun_acq_quiet (inps : List LoopInput) : ∀ (s : LoopState),
    (∀ inp ∈ inps, u32sub inp.now s.last_sample_time < SAMPLE_PERIOD_MS) →
    countEvents isAcqEvent (loopRun inps s).2 = 0 ∧
      (loopRun inps s).1.last_sample_time = s.last_sample_time := by
  induction inps with
  | nil => intro s h; exact ⟨rfl, rfl⟩
  | cons inp rest ih =>
      intro s h
      have hnot : ¬ SAMPLE_PERIOD_MS ≤ u32sub inp.now s.last_sample_time := by
        have := h inp (by simp)
        omega
      have hcount := loopIter_acq_count inp s
      rw [if_neg hnot] at hcount
      have hlast := loopIter_last_sample inp s
      rw [if_neg hnot] at hlast
      have ihh := ih (loopIter inp s).1 (by
        intro i hi
        rw [hlast]
        exact h i (by simp [hi]))
      refine ⟨?_, ?_⟩
      · simp [loopRun, countEvents_append, hcount, ihh.1]
      · simp [loopRun, ihh.2, hlast]

theorem loopRun_acq_once (s : LoopState) (inp0 : LoopInput)
    (rest : List LoopInput)
    (h0 : SAMPLE_PERIOD_MS ≤ u32sub inp0.now s.last_sample_time)
    (hrest : ∀ inp ∈ rest, u32sub inp.now inp0.now < SAMPLE_PERIOD_MS) :
    countEvents isAcqEvent (loopRun (inp0 :: rest) s).2 = 1 := by
  have hcount := loopIter_acq_count inp0 s
  rw [if_pos h0] at hcount
  have hlast := loopIter_last_sample inp0 s
  rw [if_pos h0] at hlast
  have hq := loopRun_acq_quiet rest (loopIter inp0 s).1 (by
    intro i hi
    rw [hlast]
    exact hrest i hi)
  simp [loopRun, countEvents_append, hcount, hq.1]

theorem loopRun_status_quiet (inps : List LoopInput) : ∀ (s : LoopState),
    (∀ inp ∈ inps, u32sub inp.now s.last_status_time < 30000) →
    countEvents isStatusEvent (loopRun inps s).2 = 0 ∧
      (loopRun inps s).1.last_status_time = s.last_status_time := by
  induction inps with
  | nil => intro s h; exact ⟨rfl, rfl⟩
  | cons inp rest ih =>
      intro s h
      have hnot : ¬ 30000 ≤ u32sub inp.now s.last_status_time := by
        have := h inp (by simp)
        omega
      have hcount := loopIter_status_count inp s
      rw [if_neg hnot] at hcount
      have hlast := loopIter_last_status inp s
      rw [if_neg hnot] at hlast
      have ihh := ih (loopIter inp s).1 (by
        intro i hi
        rw [hlast]
        exact h i (by simp [hi]))
      refine ⟨?_, ?_⟩
      · simp [loopRun, countEvents_append, hcount, ihh.1]
      · simp [loopRun, ihh.2, hlast]

theorem loopRun_status_once (s : LoopState) (inp0 : LoopInput)
    (rest : List LoopInput)
    (h0 : 30000 ≤ u32sub inp0.now s.last_status_time)
    (hrest : ∀ inp ∈ rest, u32sub inp.now inp0.now < 30000) :
    countEvents isStatusEvent (loopRun (inp0 :: rest) s).2 = 1 := by
  have hcount := loopIter_status_count inp0 s
  rw [if_pos h0] at hcount
  have hlast := loopIter_last_status inp0 s
  rw [if_pos h0] at hlast
  have hq := loopRun_status_quiet rest (loopIter inp0 s).1 (by
    intro i hi
    rw [hlast]
    exact hrest i hi)
  simp [loopRun, countEvents_append, hcount, hq.1]

theorem loopRun_inf_quiet (inps : List LoopInput) : ∀ (s : LoopState),
    (∀ inp ∈ inps, u32sub inp.now s.last_inference_time < 2560) →
    countEvents isInfEvent (loopRun inps s).2 = 0 ∧
      (loopRun inps s).1.last_inference_time = s.last_inference_time := by
  induction inps with
  | nil => intro s h; exact ⟨rfl, rfl⟩
  | cons inp rest ih =>
      intro s h
      have hnot : ¬ 2560 ≤ u32sub inp.now s.last_inference_time := by
        have := h inp (by simp)
        omega
      have hstep := loopIter_inf_not_due inp s hnot
      have ihh := ih (loopIter inp s).1 (by
        intro i hi
        rw [hstep.2]
        exact h i (by simp [hi]))
      refine ⟨?_, ?_⟩
      · simp [loopRun, countEvents_append, hstep.1, ihh.1]
      · simp [loopRun, ihh.2, hstep.2]

theorem loopRun_inf_once (s : LoopState) (inp0 : LoopInput)
    (rest : List LoopInput) (hf : s.buf.filled = true)
    (h0 : 2560 ≤ u32sub inp0.now s.last_inference_time)
    (hrest : ∀ inp ∈ rest, u32sub inp.now inp0.now < 2560) :
    countEvents isInfEvent (loopRun (inp0 :: rest) s).2 = 1 := by
  have hcount := loopIter_inf_count_of_filled inp0 s hf
  rw [if_pos h0] at hcount
  have hlast := loopIter_last_inference_of_filled inp0 s hf
  rw [if_pos h0] at hlast
  have hq := loopRun_inf_quiet rest (loopIter inp0 s).1 (by
    intro i hi
    rw [hlast]
    exact hrest i hi)
  simp [loopRun, countEvents_append, hcount, hq.1]


/- ======================= claim C1 ======================= -/

/-- C1: for every non-quiet classification, tier selection uses `>=` at both
thresholds: confidence exactly 0.85 yields the elevated tier
(`high_confidence_events` increments), exactly 0.95 the critical tier
(`critical_events` increments), 0.9499 the elevated tier, and any confidence
strictly below 0.85 yields the advisory tier with no counter increment beyond
`total_events`. -/
theorem C1_tier_thresholds (r : InferenceResult) (silenced : Bool)
    (c : Counters) (hn : r.label ≠ "noise") :
    (r.confidence = 0.85 →
      (process_inference_result r silenced c).1 =
        { total_events := (c.total_events + 1) % 4294967296,
          high_confidence_events := (c.high_confidence_events + 1) % 4294967296,
          critical_events := c.critical_events }) ∧
    (r.confidence = 0.95 →
      (process_inference_result r silenced c).1 =
        { total_events := (c.total_events + 1) % 4294967296,
          high_confidence_events := c.high_confidence_events,
          critical_events := (c.critical_events + 1) % 4294967296 }) ∧
    (r.confidence = 0.9499 →
      (process_inference_result r silenced c).1 =
        { total_events := (c.total_events + 1) % 4294967296,
          high_confidence_events := (c.high_confidence_events + 1) % 4294967296,
          critical_events := c.critical_events }) ∧
    (r.confidence < 0.85 →
      (process_inference_result r silenced c).1 =
        { total_events := (c.total_events + 1) % 4294967296,
          high_confidence_events := c.high_confidence_events,
          critical_events := c.critical_events }) := by
  refine ⟨?_, ?_, ?_, ?_⟩
  · intro hc
    simp [process_inference_result, hn, hc]
    norm_num
  · intro hc
    simp [process_inference_result, hn, hc]
  · intro hc
    simp [process_inference_result, hn, hc]
    norm_num
  · intro hc
    have h1 : ¬ r.confidence ≥ (0.95 : ℚ) := by
      rw [ge_iff_le, not_le]
      linarith
    have h2 : ¬ r.confidence ≥ (0.85 : ℚ) := by
      rw [ge_iff_le, not_le]
      linarith
    simp [process_inference_result, hn, h1, h2]

/-- Witness for C1 at confidence exactly 0.85. -/
theorem C1_witness :
    (sample_result 0.85).label ≠ "noise" ∧
    (sample_result 0.85).confidence = 0.85 ∧
    (process_inference_result (sample_result 0.85) false zero_counters).1 =
      { total_events := 1, high_confidence_events := 1, critical_events := 0 } := by
  refine ⟨by decide, rfl, ?_⟩
  have h := (C1_tier_thresholds (sample_result 0.85) false zero_counters
    (by decide)).1 rfl
  rw [h]
  decide

/- ======================= claim C2 ======================= -/

/-- C2: with `alert_silenced = true`, a critical classification (non-noise,
confidence at least 0.95) still increments `critical_events` and
`total_events` and still fires the visual blink and the latched LED, but the
buzzer receives zero fire calls; and silencing never changes the counters. -/
theorem C2_silence_gating (r : InferenceResult) (c : Counters)
    (hn : r.label ≠ "noise") (hc : (0.95 : ℚ) ≤ r.confidence) :
    (process_inference_result r true c).1 =
      { total_events := (c.total_events + 1) % 4294967296,
        high_confidence_events := c.high_confidence_events,
        critical_events := (c.critical_events + 1) % 4294967296 } ∧
    (process_inference_result r true c).2 =
      [SinkEvent.ledBlink LED_ALERT 10 50, SinkEvent.gpioPut LED_ALERT true] ∧
    (∀ cnt dur, SinkEvent.buzzerBeep cnt dur ∉ (process_inference_result r true c).2) ∧
    (∀ (r2 : InferenceResult) (c2 : Counters) (sil : Bool),
      (process_inference_result r2 sil c2).1 =
        (process_inference_result r2 true c2).1) := by
  have hge : r.confidence ≥ 0.95 := hc
  refine ⟨?_, ?_, ?_, ?_⟩
  · simp [process_inference_result, hn, hge]
  · simp [process_inference_result, hn, hge, alert_critical, led_blink,
      buzzer_beep]
  · intro cnt dur
    simp [process_inference_result, hn, hge, alert_critical, led_blink,
      buzzer_beep]
  · intro r2 c2 sil
    unfold process_inference_result
    split_ifs <;> rfl

/-- Witness for C2 at a concrete critical result. -/
theorem C2_witness :
    (sample_result 0.97).label ≠ "noise" ∧
    (0.95 : ℚ) ≤ (sample_result 0.97).confidence ∧
    (process_inference_result (sample_result 0.97) true zero_counters).1 =
      { total_events := 1, high_confidence_events := 0, critical_events := 1 } ∧
    (∀ cnt dur, SinkEvent.buzzerBeep cnt dur ∉
      (process_inference_result (sample_result 0.97) true zero_counters).2) := by
  refine ⟨by decide, by norm_num [sample_result], ?_, ?_⟩
  · have h := (C2_silence_gating (sample_result 0.97) zero_counters
      (by decide) (by norm_num [sample_result])).1
    rw [h]
    decide
  · exact (C2_silence_gating (sample_result 0.97) zero_counters
      (by decide) (by norm_num [sample_result])).2.2.1

/- ======================= claim C7 ======================= -/

/-- C7: a classification labelled "noise" leaves all three counters unchanged
and invokes no alert sink at all. -/
theorem C7_noise_discarded (r : InferenceResult) (silenced : Bool)
    (c : Counters) (h : r.label = "noise") :
    process_inference_result r silenced c = (c, []) := by
  unfold process_inference_result
  rw [if_pos h]

/-- Witness for C7 at a concrete noise result. -/
theorem C7_witness :
    ({ label := "noise", confidence := 0.95, inference_time_ms := 1,
       timestamp_ms := 2 } : InferenceResult).label = "noise" ∧
    process_inference_result
      { label := "noise", confidence := 0.95, inference_time_ms := 1,
        timestamp_ms := 2 } true zero_counters = (zero_counters, []) :=
  ⟨rfl, C7_noise_discarded _ true zero_counters rfl⟩

/- ======================= claim C8 ======================= -/

/-- C8 (amended): for every full window the placeholder classifier returns a
confidence in [0,1]; for a window with mean absolute amplitude above 0.05 the
label is the highest tier ("earthquake"), the confidence stays at most 1, and
it is set to 0.98 exactly when the raw value 0.85 + 2*mean exceeds 1 (so a
mean in (0.05, 0.075] keeps the raw value, which can exceed 0.98). -/
theorem C8_classifier_range (s : SampleBuffer) (t1 t2 : Nat)
    (prev : InferenceResult) (hf : s.filled = true) :
    (0 ≤ (run_inference s t1 t2 prev).confidence ∧
      (run_inference s t1 t2 prev).confidence ≤ 1) ∧
    ((0.05 : ℚ) < avg_amplitude s.buffer →
      (run_inference s t1 t2 prev).label = "earthquake" ∧
      ((1 : ℚ) < 0.85 + avg_amplitude s.buffer * 2 →
        (run_inference s t1 t2 prev).confidence = 0.98) ∧
      (0.85 + avg_amplitude s.buffer * 2 ≤ (1 : ℚ) →
        (run_inference s t1 t2 prev).confidence =
          0.85 + avg_amplitude s.buffer * 2)) := by
  have havg : 0 ≤ avg_amplitude s.buffer := by
    unfold avg_amplitude
    apply div_nonneg
    · apply List.sum_nonneg
      intro x hx
      simp only [List.mem_map] at hx
      obtain ⟨y, _, hy⟩ := hx
      rw [← hy]
      exact abs_nonneg y
    · norm_num [WINDOW_SIZE]
  have hnf : ¬ s.filled = false := by simp [hf]
  unfold run_inference
  rw [if_neg hnf]
  dsimp only
  constructor
  · by_cases h1 : avg_amplitude s.buffer > 0.05
    · rw [if_pos h1]
      dsimp only
      by_cases h2 : (0.85 : ℚ) + avg_amplitude s.buffer * 2 > 1
      · rw [if_pos h2]
        norm_num
      · rw [if_neg h2]
        push_neg at h2
        constructor
        · linarith
        · linarith
    · rw [if_neg h1]
      push_neg at h1
      by_cases h2 : avg_amplitude s.buffer > 0.02
      · rw [if_pos h2]
        dsimp only
        have h3 : ¬ (0.70 : ℚ) + avg_amplitude s.buffer * 5 > 1 := by
          push_neg
          linarith
        rw [if_neg h3]
        push_neg at h3
        constructor
        · linarith
        · linarith
      · rw [if_neg h2]
        norm_num
  · intro h1
    rw [if_pos h1]
    dsimp only
    refine ⟨rfl, ?_, ?_⟩
    · intro h2
      rw [if_pos h2]
    · intro h2
      have h3 : ¬ (0.85 : ℚ) + avg_amplitude s.buffer * 2 > 1 := by
        push_neg
        exact h2
      rw [if_neg h3]

/-- Witness for C8 at the mean-0.08 window of the spec scenario: the raw
value 0.85 + 2*0.08 = 1.01 exceeds 1, so the confidence is clamped to 0.98. -/
theorem C8_witness :
    ({ buffer := List.replicate WINDOW_SIZE (0.08 : ℚ), index := 0,
       filled := true } : SampleBuffer).filled = true ∧
    avg_amplitude (List.replicate WINDOW_SIZE (0.08 : ℚ)) = 0.08 ∧
    (run_inference
      { buffer := List.replicate WINDOW_SIZE (0.08 : ℚ), index := 0,
        filled := true } 0 0 zero_result).label = "earthquake" ∧
    (run_inference
      { buffer := List.replicate WINDOW_SIZE (0.08 : ℚ), index := 0,
        filled := true } 0 0 zero_result).confidence = 0.98 := by
  have havg : avg_amplitude (List.replicate WINDOW_SIZE (0.08 : ℚ)) = 0.08 := by
    unfold avg_amplitude
    rw [List.map_replicate, abs_of_nonneg (by norm_num : (0 : ℚ) ≤ 0.08),
      List.sum_replicate, nsmul_eq_mul]
    norm_num [WINDOW_SIZE]
  refine ⟨rfl, havg, ?_, ?_⟩
  · exact ((C8_classifier_range _ 0 0 zero_result rfl).2 (by rw [havg]; norm_num)).1
  · exact ((C8_classifier_range _ 0 0 zero_result rfl).2
      (by rw [havg]; norm_num)).2.1 (by rw [havg]; norm_num)

/-- Counterexample to C8 as stated: a full window whose every sample is 0.074
has mean absolute amplitude 0.074 > 0.05, yet the returned confidence is
0.85 + 2*0.074 = 0.998, which is strictly greater than 0.98 (the clamp fires
only when the raw value exceeds 1). -/
theorem C8_counterexample :
    (0.05 : ℚ) < avg_amplitude cex_buffer.buffer ∧
    (run_inference cex_buffer 0 0 zero_result).label = "earthquake" ∧
    (run_inference cex_buffer 0 0 zero_result).confidence = 0.998 ∧
    (0.98 : ℚ) < (run_inference cex_buffer 0 0 zero_result).confidence := by
  have havg : avg_amplitude cex_buffer.buffer = 0.074 := by
    unfold cex_buffer
    dsimp only
    unfold avg_amplitude
    rw [List.map_replicate, abs_of_nonneg (by norm_num : (0 : ℚ) ≤ 0.074),
      List.sum_replicate, nsmul_eq_mul]
    norm_num [WINDOW_SIZE]
  have hgt : avg_amplitude cex_buffer.buffer > 0.05 := by
    rw [havg]
    norm_num
  have hnc : ¬ ((0.85 : ℚ) + avg_amplitude cex_buffer.buffer * 2 > 1) := by
    rw [havg]
    norm_num
  have hrec : run_inference cex_buffer 0 0 zero_result =
      { label := "earthquake",
        confidence := 0.85 + avg_amplitude cex_buffer.buffer * 2,
        inference_time_ms := u32sub 0 0, timestamp_ms := 0 } := by
    unfold run_inference
    rw [if_neg (by decide : ¬ cex_buffer.filled = false)]
    dsimp only
    rw [if_pos hgt]
    dsimp only
    rw [if_neg hnc]
  refine ⟨by rw [havg]; norm_num, ?_, ?_, ?_⟩
  · rw [hrec]
  · rw [hrec]
    dsimp only
    rw [havg]
    norm_num
  · rw [hrec]
    dsimp only
    rw [havg]
    norm_num

/- ======================= claim C5 ======================= -/

/-- C5 (amended): a silence toggle fires exactly when the input reads active
and strictly more than 500 ms have elapsed since the last accepted toggle
(the C comparison is `now - last_press > 500`).  Hence two active reads
separated by at most 500 ms produce exactly one toggle, and separated by
strictly more than 500 ms produce two. -/
theorem C5_debounce (sil : Bool) (lp t1 t2 : Nat)
    (h1 : 500 < u32sub t1 lp) :
    ((check_button true t1 sil lp).1 = !sil ∧
      (check_button true t1 sil lp).2.1 = t1) ∧
    (u32sub t2 t1 ≤ 500 →
      (check_button true t2 (check_button true t1 sil lp).1
          (check_button true t1 sil lp).2.1).1 = !sil ∧
      (check_button true t2 (check_button true t1 sil lp).1
          (check_button true t1 sil lp).2.1).2.1 = t1) ∧
    (500 < u32sub t2 t1 →
      (check_button true t2 (check_button true t1 sil lp).1
          (check_button true t1 sil lp).2.1).1 = sil ∧
      (check_button true t2 (check_button true t1 sil lp).1
          (check_button true t1 sil lp).2.1).2.1 = t2) ∧
    (∀ (b s0 : Bool) (n l : Nat),
      ((check_button b n s0 l).1 = !s0 ↔ (b = true ∧ 500 < u32sub n l))) := by
  have hr1 : check_button true t1 sil lp =
      (!sil, t1, SinkEvent.gpioPut LED_ALERT false ::
        led_blink LED_BUILTIN (if !sil then 1 else 3) 100) := by
    unfold check_button
    rw [if_pos ⟨rfl, h1⟩]
  refine ⟨?_, ?_, ?_, ?_⟩
  · rw [hr1]
    exact ⟨rfl, rfl⟩
  · intro h2
    rw [hr1]
    dsimp only
    unfold check_button
    rw [if_neg]
    · exact ⟨rfl, rfl⟩
    · rintro ⟨-, hlt⟩
      omega
  · intro h2
    rw [hr1]
    dsimp only
    unfold check_button
    rw [if_pos ⟨rfl, h2⟩]
    exact ⟨by simp, rfl⟩
  · intro b s0 n l
    unfold check_button
    split_ifs with h
    · simp [h]
    · constructor
      · intro hcon
        cases s0 <;> simp_all
      · intro hcon
        exact absurd hcon h

/-- Witness for C5: reads at t = 1000 and t = 1400 (400 ms apart) leave the
flag toggled exactly once. -/
theorem C5_witness :
    500 < u32sub 1000 0 ∧
    u32sub 1400 1000 ≤ 500 ∧
    (check_button true 1400 (check_button true 1000 false 0).1
        (check_button true 1000 false 0).2.1).1 = true ∧
    (check_button true 1400 (check_button true 1000 false 0).1
        (check_button true 1000 false 0).2.1).2.1 = 1000 := by
  refine ⟨by decide, by decide, ?_⟩
  have h := (C5_debounce false 0 1000 1400 (by decide)).2.1 (by decide)
  exact ⟨h.1, h.2⟩

/-- Counterexample to C5 as stated: two active reads separated by exactly
500 ms.  The claim demands two toggles (final flag back to false), but the
strict comparison `now - last_press > 500` rejects the second read: the flag
stays true and `last_press` stays 1000 — exactly one toggle occurred. -/
theorem C5_counterexample :
    u32sub 1500 1000 = 500 ∧
    (check_button true 1000 false 0).1 = true ∧
    (check_button true 1500 (check_button true 1000 false 0).1
        (check_button true 1000 false 0).2.1).1 = true ∧
    (check_button true 1500 (check_button true 1000 false 0).1
        (check_button true 1000 false 0).2.1).2.1 = 1000 := by
  decide

/- ======================= claim C6 ======================= -/

/-- C6: starting from the zero-initialised buffer, after any sequence of
pushes the `filled` flag is set exactly when at least `WINDOW_SIZE` pushes
have happened (it first becomes true when the cursor wraps from
`WINDOW_SIZE - 1` to 0 on the `WINDOW_SIZE`-th push, and stays true), and the
write cursor always equals the push count modulo `WINDOW_SIZE`, hence lies in
`[0, WINDOW_SIZE)`. -/
theorem C6_fill_semantics (vs : List ℚ) :
    ((pushList vs initial_buffer).filled = true ↔ WINDOW_SIZE ≤ vs.length) ∧
    (pushList vs initial_buffer).index = vs.length % WINDOW_SIZE ∧
    (pushList vs initial_buffer).index < WINDOW_SIZE := by
  obtain ⟨hlen, hidx, hfill, hrot, hpre⟩ := pushList_inv vs
  refine ⟨hfill, hidx, ?_⟩
  rw [hidx]
  exact Nat.mod_lt _ (by norm_num [WINDOW_SIZE])

/- ======================= claim C4 ======================= -/

/-- C4 (amended): after pushing at least `WINDOW_SIZE` values, the buffer the
classifier reads holds exactly the last `WINDOW_SIZE` pushed values, but in
raw storage order — a rotation of the chronological order.  Linearizing from
the wrap point (`drop index ++ take index`) yields exactly the last
`WINDOW_SIZE` values oldest-first; the raw storage the code actually hands
over is a permutation of them. -/
theorem C4_window_contents (vs : List ℚ) (h : WINDOW_SIZE ≤ vs.length) :
    chronological_snapshot (pushList vs initial_buffer) =
      vs.drop (vs.length - WINDOW_SIZE) ∧
    (window_handed (pushList vs initial_buffer)).Perm
      (vs.drop (vs.length - WINDOW_SIZE)) := by
  obtain ⟨hlen, hidx, hfill, hrot, hpre⟩ := pushList_inv vs
  have hc := hrot h
  refine ⟨hc, ?_⟩
  rw [← hc]
  unfold window_handed
  have hsplit : (pushList vs initial_buffer).buffer.take
        (pushList vs initial_buffer).index ++
      (pushList vs initial_buffer).buffer.drop
        (pushList vs initial_buffer).index =
      (pushList vs initial_buffer).buffer :=
    List.take_append_drop _ _
  conv_lhs => rw [← hsplit]
  exact List.perm_append_comm

/-- Witness for C4 after exactly 256 pushes of zeros. -/
theorem C4_witness :
    WINDOW_SIZE ≤ (List.replicate 256 (0 : ℚ)).length ∧
    chronological_snapshot (pushList (List.replicate 256 (0 : ℚ)) initial_buffer) =
      (List.replicate 256 (0 : ℚ)).drop
        ((List.replicate 256 (0 : ℚ)).length - WINDOW_SIZE) := by
  refine ⟨by simp [WINDOW_SIZE], ?_⟩
  exact (C4_window_contents (List.replicate 256 (0 : ℚ))
    (by simp [WINDOW_SIZE])).1

/-- Counterexample to C4 as stated: pushing 256 zeros and then a 1 (257
pushes), the sequence the classifier iterates is the raw storage order
`[1, 0, ..., 0]` — the newest value sits at `buffer[0]` after the wrap — and
not the chronological sequence `[0, ..., 0, 1]`, although linearizing from
the wrap point does give the chronological sequence. -/
theorem C4_counterexample :
    window_handed (pushList cex_pushes initial_buffer) ≠
      cex_pushes.drop (cex_pushes.length - WINDOW_SIZE) ∧
    chronological_snapshot (pushList cex_pushes initial_buffer) =
      cex_pushes.drop (cex_pushes.length - WINDOW_SIZE) := by
  obtain ⟨hlen, hidx, hfill, hrot, hpre⟩ := pushList_inv cex_pushes
  have hlen257 : cex_pushes.length = 257 := by simp [cex_pushes]
  have hge : WINDOW_SIZE ≤ cex_pushes.length := by
    rw [hlen257]
    norm_num [WINDOW_SIZE]
  have hw : cex_pushes.drop (cex_pushes.length - WINDOW_SIZE) =
      List.replicate 255 (0 : ℚ) ++ [1] := by
    rw [hlen257]
    have h1 : 257 - WINDOW_SIZE = 1 := by norm_num [WINDOW_SIZE]
    rw [h1]
    unfold cex_pushes
    rw [List.drop_append_of_le_length (by norm_num), List.drop_replicate]
  have hrot2 := hrot hge
  refine ⟨?_, hrot2⟩
  intro heq
  unfold window_handed at heq
  have hidx1 : (pushList cex_pushes initial_buffer).index = 1 := by
    rw [hidx, hlen257]
    norm_num [WINDOW_SIZE]
  rw [hidx1] at hrot2
  rw [hw] at heq hrot2
  rw [heq] at hrot2
  have htake : (List.replicate 255 (0 : ℚ) ++ [1]).take 1 = [0] := by
    rw [List.take_append_of_le_length (by norm_num), List.take_replicate]
    have hmin : min 1 255 = 1 := by norm_num
    rw [hmin]
    rfl
  rw [htake] at hrot2
  have hlast := congrArg List.getLast? hrot2
  rw [List.getLast?_concat, List.getLast?_concat] at hlast
  simp at hlast

/- ======================= claim C3 ======================= -/

/-- C3 (amended): in each loop iteration the acquisition cadence fires exactly
when `now - last_sample_time >= 10` and the status cadence exactly when
`now - last_status_time >= 30000`; the classification cadence — once the
window is filled — fires exactly when `now - last_inference_time >= 2560`.
On firing, the last-fired stamp is set to `now` (not `last + period`), so a
loop that stalls for three periods and then resumes fires each cadence
exactly once, never three times. -/
theorem C3_cadence_semantics (inp : LoopInput) (s : LoopState) :
    (countEvents isAcqEvent (loopIter inp s).2 =
      if SAMPLE_PERIOD_MS ≤ u32sub inp.now s.last_sample_time then 1 else 0) ∧
    ((loopIter inp s).1.last_sample_time =
      if SAMPLE_PERIOD_MS ≤ u32sub inp.now s.last_sample_time then inp.now
      else s.last_sample_time) ∧
    (countEvents isStatusEvent (loopIter inp s).2 =
      if 30000 ≤ u32sub inp.now s.last_status_time then 1 else 0) ∧
    ((loopIter inp s).1.last_status_time =
      if 30000 ≤ u32sub inp.now s.last_status_time then inp.now
      else s.last_status_time) ∧
    (s.buf.filled = true →
      countEvents isInfEvent (loopIter inp s).2 =
        (if 2560 ≤ u32sub inp.now s.last_inference_time then 1 else 0) ∧
      (loopIter inp s).1.last_inference_time =
        (if 2560 ≤ u32sub inp.now s.last_inference_time then inp.now
         else s.last_inference_time)) ∧
    (∀ (inp0 : LoopInput) (rest : List LoopInput),
      3 * SAMPLE_PERIOD_MS ≤ u32sub inp0.now s.last_sample_time →
      (∀ i ∈ rest, u32sub i.now inp0.now < SAMPLE_PERIOD_MS) →
      countEvents isAcqEvent (loopRun (inp0 :: rest) s).2 = 1) ∧
    (∀ (inp0 : LoopInput) (rest : List LoopInput),
      3 * 30000 ≤ u32sub inp0.now s.last_status_time →
      (∀ i ∈ rest, u32sub i.now inp0.now < 30000) →
      countEvents isStatusEvent (loopRun (inp0 :: rest) s).2 = 1) ∧
    (∀ (inp0 : LoopInput) (rest : List LoopInput),
      s.buf.filled = true →
      3 * 2560 ≤ u32sub inp0.now s.last_inference_time →
      (∀ i ∈ rest, u32sub i.now inp0.now < 2560) →
      countEvents isInfEvent (loopRun (inp0 :: rest) s).2 = 1) := by
  refine ⟨loopIter_acq_count inp s, loopIter_last_sample inp s,
    loopIter_status_count inp s, loopIter_last_status inp s, ?_, ?_, ?_, ?_⟩
  · intro hf
    exact ⟨loopIter_inf_count_of_filled inp s hf,
      loopIter_last_inference_of_filled inp s hf⟩
  · intro inp0 rest h0 hrest
    exact loopRun_acq_once s inp0 rest (by omega) hrest
  · intro inp0 rest h0 hrest
    exact loopRun_status_once s inp0 rest (by omega) hrest
  · intro inp0 rest hf h0 hrest
    exact loopRun_inf_once s inp0 rest hf (by omega) hrest

/-- Witness for C3: the acquisition cadence last fired at t = 100; the loop
stalls and resumes with iterations at t = 130, 132, 134 — one fire. -/
theorem C3_witness :
    3 * SAMPLE_PERIOD_MS ≤ u32sub (quiet_inp 130).now stall_state.last_sample_time ∧
    (∀ i ∈ [quiet_inp 132, quiet_inp 134],
      u32sub i.now (quiet_inp 130).now < SAMPLE_PERIOD_MS) ∧
    countEvents isAcqEvent
      (loopRun [quiet_inp 130, quiet_inp 132, quiet_inp 134] stall_state).2 = 1 := by
  refine ⟨by decide, by decide, ?_⟩
  exact (C3_cadence_semantics (quiet_inp 130) stall_state).2.2.2.2.2.1
    (quiet_inp 130) [quiet_inp 132, quiet_inp 134] (by decide) (by decide)

/-- Counterexample to C3 as stated: at t = 3000 with
`last_inference_time = 0` the classification period condition
`now - last >= 2560` holds, yet the classification cadence does not fire,
because the window is not yet filled. -/
theorem C3_counterexample :
    2560 ≤ u32sub (quiet_inp 3000).now unfilled_state.last_inference_time ∧
    unfilled_state.buf.filled = false ∧
    countEvents isInfEvent (loopIter (quiet_inp 3000) unfilled_state).2 = 0 := by
  refine ⟨by decide, rfl, ?_⟩
  have hA : ¬ (SAMPLE_PERIOD_MS ≤
      u32sub (quiet_inp 3000).now unfilled_state.last_sample_time) := by
    decide
  simp only [loopIter, hA, if_false]
  simp [countEvents_append, apply_ite (countEvents isInfEvent),
    countEvents_cons, countEvents_nil, countEvents_sink_inf, isInfEvent,
    unfilled_state, initial_buffer]

/- ======================= claim C9 ======================= -/

/-- C9: on every acquisition tick that is due, the loop pushes the converted
velocity into the window unconditionally — there is no failure detection, no
physical-range check, and no code path that skips the push, whatever the ADC
readings are. -/
theorem C9_push_unconditional (inp : LoopInput) (s : LoopState)
    (h : SAMPLE_PERIOD_MS ≤ u32sub inp.now s.last_sample_time) :
    (loopIter inp s).1.buf =
      buffer_add_sample s.buf
        (acquire_geophone_sample inp.adc_reads inp.now).velocity_m_s ∧
    Event.acquire (acquire_geophone_sample inp.adc_reads inp.now).velocity_m_s ∈
      (loopIter inp s).2 := by
  constructor
  · simp only [loopIter]
    simp [apply_ite LoopState.buf, h]
  · simp only [loopIter]
    simp [h]

/-- Witness for C9: a saturated ADC (all 64 reads at full scale 4095, an
out-of-physical-range reading for the SM-24 bias point) is still converted
and pushed; the pushed velocity is 11/192 m/s. -/
theorem C9_witness :
    SAMPLE_PERIOD_MS ≤ u32sub 1000 stall_state.last_sample_time ∧
    read_adc_averaged (List.replicate 64 4095) = 4095 ∧
    (acquire_geophone_sample (List.replicate 64 4095) 1000).velocity_m_s =
      11 / 192 ∧
    Event.acquire
        (acquire_geophone_sample sat_inp.adc_reads sat_inp.now).velocity_m_s ∈
      (loopIter sat_inp stall_state).2 := by
  refine ⟨by decide, by decide, ?_, ?_⟩
  · unfold acquire_geophone_sample
    dsimp only
    rw [(by decide : read_adc_averaged (List.replicate 64 4095) = 4095)]
    norm_num [adc_to_voltage, voltage_to_velocity_ms, ADC_VREF,
      SM24_SENSITIVITY_V_MS]
  · exact (C9_push_unconditional sat_inp stall_state (by decide)).2

/- ======================= claim C10 ======================= -/

theorem run_inference_filled_shape (b : SampleBuffer) (t1 t2 : Nat)
    (prev : InferenceResult) (h : b.filled = true) :
    (run_inference b t1 t2 prev).label ≠ "insufficient_data" ∧
    (run_inference b t1 t2 prev).timestamp_ms = t2 := by
  unfold run_inference
  rw [if_neg (by simp [h])]
  dsimp only
  refine ⟨?_, rfl⟩
  split_ifs <;> (dsimp only; decide)

theorem mem_ite_cases {a : Event} {c : Prop} [Decidable c]
    {l1 l2 : List Event} (h : a ∈ (if c then l1 else l2)) :
    (c ∧ a ∈ l1) ∨ (¬ c ∧ a ∈ l2) := by
  by_cases hc : c
  · rw [if_pos hc] at h
    exact Or.inl ⟨hc, h⟩
  · rw [if_neg hc] at h
    exact Or.inr ⟨hc, h⟩

/-- C10: `run_inference` on an unfilled buffer reports "insufficient_data"
with confidence 0 and inference time 0 while leaving the timestamp field
untouched; and this branch is unreachable from the main loop — every
classification the loop emits comes from a filled buffer, so its label is
never "insufficient_data" and its timestamp is always assigned (to the
iteration clock). -/
theorem C10_insufficient_data :
    (∀ (b : SampleBuffer) (t1 t2 : Nat) (prev : InferenceResult),
      b.filled = false →
      run_inference b t1 t2 prev =
        { label := "insufficient_data", confidence := 0,
          inference_time_ms := 0, timestamp_ms := prev.timestamp_ms }) ∧
    (∀ (inp : LoopInput) (s : LoopState) (r : InferenceResult),
      Event.inference r ∈ (loopIter inp s).2 →
      r.label ≠ "insufficient_data" ∧ r.timestamp_ms = inp.now) := by
  constructor
  · intro b t1 t2 prev h
    unfold run_inference
    rw [if_pos h]
  · intro inp s r hr
    simp only [loopIter] at hr
    simp only [List.mem_append] at hr
    rcases hr with ((((h1 | h2) | h3) | (h4a | h4b)) | h5)
    · rcases mem_ite_cases h1 with ⟨-, h⟩ | ⟨-, h⟩ <;> simp at h
    · rcases mem_ite_cases h2 with ⟨⟨hfill, -⟩, h⟩ | ⟨-, h⟩
      · rcases List.mem_cons.mp h with heq | hmem
        · simp only [Event.inference.injEq] at heq
          subst heq
          exact run_inference_filled_shape _ inp.now inp.now _ hfill
        · simp at hmem
      · simp at h
    · rcases mem_ite_cases h3 with ⟨-, h⟩ | ⟨-, h⟩ <;> simp at h
    · rcases mem_ite_cases h4a with ⟨-, h⟩ | ⟨-, h⟩ <;> simp at h
    · rcases mem_ite_cases h4b with ⟨-, h⟩ | ⟨-, h⟩ <;> simp at h
    · simp at h5

/-- Witness for C10: the unfilled branch at a concrete previous result, and a
concrete loop iteration whose emitted classification cannot be
"insufficient_data". -/
theorem C10_witness :
    initial_buffer.filled = false ∧
    run_inference initial_buffer 5 9
      { label := "x", confidence := 0, inference_time_ms := 7,
        timestamp_ms := 12345 } =
      { label := "insufficient_data", confidence := 0, inference_time_ms := 0,
        timestamp_ms := 12345 } ∧
    Event.inference inf_demo ∈ (loopIter (quiet_inp 3000) filled_state).2 ∧
    inf_demo.label ≠ "insufficient_data" := by
  have hmem : Event.inference inf_demo ∈
      (loopIter (quiet_inp 3000) filled_state).2 := by
    have hA : ¬ (SAMPLE_PERIOD_MS ≤
        u32sub (quiet_inp 3000).now filled_state.last_sample_time) := by
      decide
    have hI : filled_state.buf.filled = true ∧
        2560 ≤ u32sub (quiet_inp 3000).now filled_state.last_inference_time := by
      exact ⟨rfl, by decide⟩
    simp only [loopIter, hA, if_false, hI, if_true]
    simp [inf_demo, quiet_inp]
  refine ⟨rfl, ?_, hmem, ?_⟩
  · exact C10_insufficient_data.1 initial_buffer 5 9
      { label := "x", confidence := 0, inference_time_ms := 7,
        timestamp_ms := 12345 } rfl
  · exact (C10_insufficient_data.2 (quiet_inp 3000) filled_state inf_demo
      hmem).1
